import Mathlib

/-!
Verification of the analytics dashboard application's block-positioning,
chart-reconciliation and Epesi-Agent conversation logic.

The definitions below are shallow embeddings of the corresponding
JavaScript/TypeScript route handlers and storage methods:

* `PosEngine` — the block position operations of the Express router in
  `routes/applet/dashboards/api.js` (create / delete / reorder) and of
  `DatabaseStorage` in the storage module (`createBlock`, `deleteBlock`,
  `reorderBlocks`), together with the block routes of `server/routes.ts`.
  A dashboard's block table is modelled as a `List Block` in row order;
  SQL `UPDATE ... WHERE` statements become `List.map` with a guard and
  SQL `DELETE ... WHERE` becomes `List.filter`.
* `Reconcile` — the client-side `transformChartData` of
  `smart-insights-modal.tsx`, including JavaScript truthiness for the
  `value || 0` coercion.
* `Agent` — the conversation-title derivation, greeting short-circuit
  of the `/api/epesi-agent/chat` handler, and the chat-history context
  slice of `draggable-toolbar.tsx` (`chatHistory.slice(-6).reverse()`).
-/

namespace PosEngine

/-- A row of the `blocks` table restricted to the columns the position
engine reads or writes: the opaque id, the block type and the position. -/
structure Block where
  id : String
  btype : String
  pos : Int
deriving Repr, DecidableEq

/-- The positions of a dashboard's blocks, in row order. -/
def positions (s : List Block) : List Int := s.map (·.pos)

/-- `[0, 1, ..., n-1]` as integers: the dense range the spec requires. -/
def intRange (n : Nat) : List Int := (List.range n).map (fun (m : Nat) => (m : Int))

/-- Density invariant: the positions are exactly a permutation of
`{0, ..., N-1}` where `N` is the block count. -/
def dense (s : List Block) : Prop := (positions s).Perm (intRange s.length)

instance (s : List Block) : Decidable (dense s) :=
  inferInstanceAs (Decidable (List.Perm _ _))

/-- `SELECT MAX(position) FROM blocks WHERE dashboard_id = ...`:
the maximum of the position column, `none` on an empty table. -/
def sqlMaxPos (s : List Block) : Option Int := (positions s).maximum

/-- The position chosen by the `part_006` create-block route when no
position is supplied: `(maxPositionResult?.max_pos || -1) + 1`.  The
JavaScript `||` treats the number `0` as falsy, so a maximum position of
`0` falls back to `-1` exactly like a `NULL` maximum does. -/
def appendPos (s : List Block) : Int :=
  (match sqlMaxPos s with
   | none => -1
   | some m => if m = 0 then -1 else m) + 1

/-- `UPDATE blocks SET position = position + 1 WHERE dashboard_id = $1
AND position >= $2`. -/
def shiftGE (p : Int) (s : List Block) : List Block :=
  s.map (fun b => if p ≤ b.pos then { b with pos := b.pos + 1 } else b)

/-- `POST /dashboards/:dashboardId/blocks` of the `part_006` router:
with no position, append at `appendPos`; with a position, shift every
block at or after it right by one, then insert the new row. -/
def createBlock_p6 (s : List Block) (newId newType : String)
    (position : Option Int) : List Block :=
  match position with
  | none => s ++ [⟨newId, newType, appendPos s⟩]
  | some p => shiftGE p s ++ [⟨newId, newType, p⟩]

/-- `POST /api/dashboards/:id/blocks` of `server/routes.ts`: with no
position, shift every existing block down by one and insert at `0`;
with a position, insert at that position with no shifting at all. -/
def createBlock_rt (s : List Block) (newId newType : String)
    (position : Option Int) : List Block :=
  match position with
  | none => (s.map (fun b => { b with pos := b.pos + 1 })) ++ [⟨newId, newType, 0⟩]
  | some p => s ++ [⟨newId, newType, p⟩]

/-- `DELETE FROM blocks WHERE id = $1` — both `DatabaseStorage.deleteBlock`
and the `part_006` delete route run exactly this statement and nothing
else: no position is ever rewritten afterwards. -/
def deleteBlock (s : List Block) (bid : String) : List Block :=
  s.filter (fun b => b.id != bid)

/-- `UPDATE blocks SET position = $1 WHERE id = $2 AND dashboard_id = $3`. -/
def setPos (s : List Block) (bid : String) (p : Int) : List Block :=
  s.map (fun b => if b.id = bid then { b with pos := p } else b)

/-- `DatabaseStorage.reorderBlocks` / the `part_006` reorder route:
`for (let i = 0; i < blockOrder.length; i++) UPDATE ... SET position = i
WHERE id = blockOrder[i]`.  No validation of the id set is performed. -/
def reorderBlocks (s : List Block) (order : List String) : List Block :=
  order.enum.foldl (fun st q => setPos st q.2 ((q.1 : Nat) : Int)) s

/-- Specification of what `reorderBlocks` actually assigns to one block:
the index of the last occurrence of its id in the order list, or its old
position when the id does not occur. -/
def reorderSpecPos (x : String) (d : Int) (order : List String) : Int :=
  order.enum.foldl (fun acc q => if q.2 = x then ((q.1 : Nat) : Int) else acc) d

end PosEngine

namespace PosEngine

/-- The shift applied to a single position by `shiftGE`. -/
def shiftFn (p : Int) (k : Int) : Int := if p ≤ k then k + 1 else k

theorem intRange_succ (n : Nat) :
    intRange (n + 1) = intRange n ++ [(n : Int)] := by
  simp [intRange, List.range_succ]

theorem mem_intRange {n : Nat} {k : Int} :
    k ∈ intRange n ↔ 0 ≤ k ∧ k < n := by
  unfold intRange
  simp only [List.mem_map, List.mem_range]
  constructor
  · rintro ⟨m, hm, rfl⟩
    omega
  · rintro ⟨h0, hn⟩
    exact ⟨k.toNat, by omega, by omega⟩

/-- Shifting a dense range right at `p` and re-adding `p` is a permutation
of the one-larger dense range. -/
theorem cons_shift_intRange_perm (n : Nat) (p : Int)
    (h0 : 0 ≤ p) (hn : p ≤ (n : Int)) :
    (p :: (intRange n).map (shiftFn p)).Perm (intRange (n + 1)) := by
  induction n with
  | zero =>
      have hp : p = 0 := le_antisymm (by exact_mod_cast hn) h0
      subst hp
      decide
  | succ m ih =>
      rw [intRange_succ m, List.map_append, intRange_succ (m + 1)]
      by_cases hpm : p ≤ (m : Int)
      · have hstep := ih hpm
        have hlast : (([(m : Int)]).map (shiftFn p)) = [((m + 1 : Nat) : Int)] := by
          simp only [List.map_cons, List.map_nil, shiftFn, if_pos hpm]
          push_cast
          rfl
        rw [hlast, ← List.cons_append]
        exact hstep.append_right _
      · have hpeq : p = ((m : Int) + 1) := by omega
        have hmap : (intRange m).map (shiftFn p) = intRange m := by
          rw [show intRange m = (intRange m).map id by simp]
          rw [List.map_map]
          refine List.map_congr_left ?_
          intro k hk
          have hk2 := (mem_intRange.mp hk).2
          simp only [Function.comp, id, shiftFn, if_neg (by omega : ¬ p ≤ k)]
        have hlast : (([(m : Int)]).map (shiftFn p)) = [(m : Int)] := by
          simp only [List.map_cons, List.map_nil, shiftFn,
            if_neg (by omega : ¬ p ≤ (m : Int))]
        rw [hmap, hlast, hpeq]
        have h1 : ((intRange m ++ [(m : Int)]) ++ [((m : Int) + 1)]).Perm
            (((m : Int) + 1) :: (intRange m ++ [(m : Int)])) :=
          List.perm_append_singleton _ _
        have h2 : (intRange m ++ [(m : Int)]) ++ [((m : Int) + 1)]
            = intRange (m + 1) ++ [((m + 1 : Nat) : Int)] := by
          rw [intRange_succ]
          push_cast
          rfl
        exact (h2 ▸ h1).symm

theorem positions_shiftGE (p : Int) (s : List Block) :
    positions (shiftGE p s) = (positions s).map (shiftFn p) := by
  unfold positions shiftGE shiftFn
  rw [List.map_map, List.map_map]
  refine List.map_congr_left ?_
  intro b _
  by_cases h : p ≤ b.pos <;> simp [Function.comp, h]

/-- Inserting at any position `0 ≤ p ≤ N` through the `part_006` route
preserves the density invariant. -/
theorem createBlock_p6_some_dense (s : List Block) (newId newType : String)
    (p : Int) (hd : dense s) (h0 : 0 ≤ p) (hn : p ≤ (s.length : Int)) :
    dense (createBlock_p6 s newId newType (some p)) := by
  unfold dense at hd ⊢
  have hlen : (createBlock_p6 s newId newType (some p)).length = s.length + 1 := by
    simp [createBlock_p6, shiftGE]
  rw [hlen]
  have hpos : positions (createBlock_p6 s newId newType (some p))
      = (positions s).map (shiftFn p) ++ [p] := by
    show positions (shiftGE p s ++ [⟨newId, newType, p⟩])
        = (positions s).map (shiftFn p) ++ [p]
    rw [← positions_shiftGE]
    unfold positions
    rw [List.map_append]
    rfl
  rw [hpos]
  have h1 : ((positions s).map (shiftFn p) ++ [p]).Perm
      (p :: (positions s).map (shiftFn p)) := List.perm_append_singleton _ _
  have h2 : (p :: (positions s).map (shiftFn p)).Perm
      (p :: (intRange s.length).map (shiftFn p)) := (hd.map (shiftFn p)).cons p
  exact (h1.trans h2).trans (cons_shift_intRange_perm s.length p h0 hn)

/-- With pairwise-distinct block ids, the SQL delete removes exactly the
one matching row. -/
theorem deleteBlock_eq_erase (s : List Block) (x : Block)
    (hids : (s.map (·.id)).Nodup) (hx : x ∈ s) :
    deleteBlock s x.id = s.erase x := by
  induction s with
  | nil => cases hx
  | cons a t ih =>
      rw [List.map_cons, List.nodup_cons] at hids
      rw [List.mem_cons] at hx
      by_cases hax : a.id = x.id
      · have hxa : x = a := by
          rcases hx with rfl | hxt
          · rfl
          · exact absurd (hax ▸ List.mem_map_of_mem (·.id) hxt) hids.1
        subst hxa
        rw [List.erase_cons_head]
        unfold deleteBlock
        rw [List.filter_cons_of_neg (by simp)]
        rw [List.filter_eq_self.mpr]
        intro b hb
        simp only [bne_iff_ne, ne_eq]
        intro hbid
        exact hids.1 (hbid ▸ List.mem_map_of_mem (·.id) hb)
      · have hxt : x ∈ t := by
          rcases hx with rfl | hxt
          · exact absurd rfl hax
          · exact hxt
        have hne : ¬ (a == x) := by
          intro hab
          exact hax (congrArg (·.id) (eq_of_beq hab))
        rw [List.erase_cons_tail (by simpa using hne)]
        unfold deleteBlock at *
        rw [List.filter_cons_of_pos (by simpa using hax)]
        rw [ih hids.2 hxt]

/-- After the delete, the multiset of positions is the old multiset with
the deleted block's position removed — the gap is never closed. -/
theorem deleteBlock_positions (s : List Block) (x : Block)
    (hids : (s.map (·.id)).Nodup) (hx : x ∈ s) :
    (positions (deleteBlock s x.id)).Perm ((positions s).erase x.pos) := by
  rw [deleteBlock_eq_erase s x hids hx]
  have h1 : s.Perm (x :: s.erase x) := List.perm_cons_erase hx
  have h2 : (positions s).Perm (x.pos :: positions (s.erase x)) := by
    unfold positions
    simpa using h1.map (fun b : Block => b.pos)
  have h3 : ((positions s).erase x.pos).Perm
      ((x.pos :: positions (s.erase x)).erase x.pos) := h2.erase x.pos
  rw [List.erase_cons_head] at h3
  exact h3.symm

/-- On a dense dashboard of `n + 1` blocks the SQL `MAX(position)` is `n`. -/
theorem sqlMaxPos_dense (s : List Block) (n : Nat)
    (hlen : s.length = n + 1) (hd : dense s) :
    sqlMaxPos s = some ((n : Nat) : Int) := by
  unfold sqlMaxPos
  have hmax : (positions s).maximum = (((n : Nat) : Int) : WithBot Int) := by
    rw [List.maximum_eq_coe_iff]
    constructor
    · rw [hd.mem_iff, hlen]
      refine mem_intRange.mpr ⟨by omega, by push_cast; omega⟩
    · intro a ha
      rw [hd.mem_iff, hlen] at ha
      have := mem_intRange.mp ha
      omega
  exact hmax

/-- The append position chosen by the `part_006` route on a dense
dashboard: the block count, except that a one-block dashboard falls into
the JavaScript falsy-zero trap and yields `0` again. -/
theorem appendPos_dense (s : List Block) (hd : dense s) :
    appendPos s = if s.length = 1 then 0 else (s.length : Int) := by
  rcases hlen : s.length with _ | n
  · have hnil : s = [] := List.length_eq_zero.mp hlen
    subst hnil
    decide
  · rcases n with _ | m
    · have hmax := sqlMaxPos_dense s 0 hlen hd
      unfold appendPos
      rw [hmax]
      norm_num
    · have hmax := sqlMaxPos_dense s (m + 1) hlen hd
      unfold appendPos
      rw [hmax]
      rw [if_neg (by omega : ¬ (m + 1 + 1 = 1))]
      show (if ((m + 1 : Nat) : Int) = 0 then (-1 : Int) else ((m + 1 : Nat) : Int)) + 1
          = ((m + 1 + 1 : Nat) : Int)
      rw [if_neg (by omega : ¬ ((m + 1 : Nat) : Int) = 0)]
      push_cast
      ring

/-- The position a sequence of indexed assignments leaves on a block with
id `x` and prior position `d`: the last matching assignment wins. -/
def foldAssign (ps : List (Nat × String)) (x : String) (d : Int) : Int :=
  ps.foldl (fun acc q => if q.2 = x then ((q.1 : Nat) : Int) else acc) d

/-- A sequence of single-id position updates, as run by `reorderBlocks`,
acts on each block independently: the final list maps each block to the
result of folding its own assignments. -/
theorem foldl_setPos_map (ps : List (Nat × String)) (s : List Block) :
    ps.foldl (fun st q => setPos st q.2 ((q.1 : Nat) : Int)) s
      = s.map (fun b => { b with pos := foldAssign ps b.id b.pos }) := by
  induction ps generalizing s with
  | nil =>
      rw [List.foldl_nil]
      exact (List.map_id s).symm
  | cons q ps ih =>
      rw [List.foldl_cons, ih (setPos s q.2 ((q.1 : Nat) : Int))]
      unfold setPos
      rw [List.map_map]
      refine List.map_congr_left ?_
      intro b _
      by_cases h : b.id = q.2
      · have h2 : q.2 = b.id := h.symm
        simp only [Function.comp, if_pos h, foldAssign, List.foldl_cons, if_pos h2]
      · have h2 : ¬ q.2 = b.id := fun hq => h hq.symm
        simp only [Function.comp, if_neg h, foldAssign, List.foldl_cons, if_neg h2]

theorem snd_mem_of_mem_enumFrom {α : Type} {q : Nat × α} {l : List α} :
    ∀ {n : Nat}, q ∈ List.enumFrom n l → q.2 ∈ l := by
  induction l with
  | nil => intro n h; cases h
  | cons a t ih =>
      intro n h
      rw [List.enumFrom_cons, List.mem_cons] at h
      rcases h with rfl | h
      · exact List.mem_cons_self a t
      · exact List.mem_cons_of_mem a (ih h)

theorem foldAssign_not_mem (ps : List (Nat × String)) (x : String) (d : Int)
    (h : ∀ q ∈ ps, q.2 ≠ x) : foldAssign ps x d = d := by
  induction ps generalizing d with
  | nil => rfl
  | cons q ps ih =>
      unfold foldAssign at *
      rw [List.foldl_cons, if_neg (h q (List.mem_cons_self q ps))]
      exact ih _ (fun r hr => h r (List.mem_cons_of_mem q hr))

theorem reorderSpecPos_not_mem (x : String) (d : Int) (order : List String)
    (h : x ∉ order) : reorderSpecPos x d order = d := by
  show foldAssign order.enum x d = d
  refine foldAssign_not_mem order.enum x d ?_
  intro q hq hqx
  exact h (hqx ▸ snd_mem_of_mem_enumFrom hq)

end PosEngine

open PosEngine in
/-- C1, counterexample: the density invariant is not preserved by every
block operation.  The dashboard `[a@0, b@1]` is dense, but deleting block
`a` through the delete route leaves the single survivor at position `1`,
not `{0}`. -/
theorem C1_density_counterexample :
    dense [⟨"a", "ai", 0⟩, ⟨"b", "ai", 1⟩] ∧
    positions (deleteBlock [⟨"a", "ai", 0⟩, ⟨"b", "ai", 1⟩] "a") = [1] ∧
    ¬ dense (deleteBlock [⟨"a", "ai", 0⟩, ⟨"b", "ai", 1⟩] "a") := by
  decide

open PosEngine in
/-- C1, amended: inserting at an explicit position `0 ≤ p ≤ N` through the
`part_006` dashboards route preserves the density invariant, but deleting
a block closes no gap: every surviving position is left unchanged, so the
position multiset after a delete is the previous one with only the deleted
block's position removed. -/
theorem C1_density_amended (s : List Block) (newId newType : String)
    (p : Int) (x : Block) (hd : dense s) (h0 : 0 ≤ p)
    (hn : p ≤ (s.length : Int)) (hids : (s.map (·.id)).Nodup) (hx : x ∈ s) :
    dense (createBlock_p6 s newId newType (some p)) ∧
    (positions (deleteBlock s x.id)).Perm ((positions s).erase x.pos) :=
  ⟨createBlock_p6_some_dense s newId newType p hd h0 hn,
   deleteBlock_positions s x hids hx⟩

open PosEngine in
/-- C1, witness: the amended statement at the two-block dashboard
`[a@0, b@1]`, inserting `c` at position `0` and deleting `a`. -/
theorem C1_density_amended_witness :
    (dense [⟨"a", "ai", 0⟩, ⟨"b", "ai", 1⟩] ∧
     (0 : Int) ≤ 0 ∧ (0 : Int) ≤ 2 ∧
     ((([⟨"a", "ai", 0⟩, ⟨"b", "ai", 1⟩] : List Block).map (·.id)).Nodup) ∧
     (⟨"a", "ai", 0⟩ : Block) ∈ [⟨"a", "ai", 0⟩, ⟨"b", "ai", 1⟩]) ∧
    dense (createBlock_p6 [⟨"a", "ai", 0⟩, ⟨"b", "ai", 1⟩] "c" "chart" (some 0)) ∧
    (positions (deleteBlock [⟨"a", "ai", 0⟩, ⟨"b", "ai", 1⟩] "a")).Perm
      ((positions [⟨"a", "ai", 0⟩, ⟨"b", "ai", 1⟩]).erase 0) :=
  ⟨⟨by decide, by decide, by decide, by decide, by decide⟩,
   C1_density_amended [⟨"a", "ai", 0⟩, ⟨"b", "ai", 1⟩] "c" "chart" 0
     ⟨"a", "ai", 0⟩ (by decide) (by decide) (by decide) (by decide) (by decide)⟩

open PosEngine in
/-- C2, counterexample: deleting the block at position 1 from positions
`[0, 1, 2, 3]` does not re-sequence the survivors to `[0, 1, 2]` — the
delete route runs only `DELETE FROM blocks WHERE id = $1`, so the
survivors keep positions `[0, 2, 3]`. -/
theorem C2_delete_counterexample :
    positions (deleteBlock
      [⟨"b0", "ai", 0⟩, ⟨"b1", "ai", 1⟩, ⟨"b2", "ai", 2⟩, ⟨"b3", "ai", 3⟩] "b1")
      = [0, 2, 3] ∧
    ¬ (positions (deleteBlock
      [⟨"b0", "ai", 0⟩, ⟨"b1", "ai", 1⟩, ⟨"b2", "ai", 2⟩, ⟨"b3", "ai", 3⟩] "b1")).Perm
      (intRange 3) := by
  decide

open PosEngine in
/-- C2, amended: deleting a block removes exactly that block and leaves
every remaining block — including its position — unchanged; no position
is decremented, so the survivors occupy the old position multiset minus
the deleted block's position rather than `0..N-2`. -/
theorem C2_delete_amended (s : List Block) (x : Block)
    (hids : (s.map (·.id)).Nodup) (hx : x ∈ s) :
    (positions (deleteBlock s x.id)).Perm ((positions s).erase x.pos) ∧
    ∀ b ∈ s, b.id ≠ x.id → b ∈ deleteBlock s x.id := by
  refine ⟨deleteBlock_positions s x hids hx, ?_⟩
  intro b hb hne
  refine List.mem_filter.mpr ⟨hb, ?_⟩
  simpa using hne

open PosEngine in
/-- C2, witness: the amended statement on Scenario B's dashboard
`[b0@0, b1@1, b2@2, b3@3]`, deleting `b1`; the block `b3` survives with
its position still `3`. -/
theorem C2_delete_amended_witness :
    ((([⟨"b0", "ai", 0⟩, ⟨"b1", "ai", 1⟩, ⟨"b2", "ai", 2⟩, ⟨"b3", "ai", 3⟩] :
        List Block).map (·.id)).Nodup ∧
     (⟨"b1", "ai", 1⟩ : Block) ∈
       [⟨"b0", "ai", 0⟩, ⟨"b1", "ai", 1⟩, ⟨"b2", "ai", 2⟩, ⟨"b3", "ai", 3⟩]) ∧
    (positions (deleteBlock
        [⟨"b0", "ai", 0⟩, ⟨"b1", "ai", 1⟩, ⟨"b2", "ai", 2⟩, ⟨"b3", "ai", 3⟩]
        "b1")).Perm
      ((positions
        [⟨"b0", "ai", 0⟩, ⟨"b1", "ai", 1⟩, ⟨"b2", "ai", 2⟩, ⟨"b3", "ai", 3⟩]).erase 1) ∧
    ∀ b ∈ ([⟨"b0", "ai", 0⟩, ⟨"b1", "ai", 1⟩, ⟨"b2", "ai", 2⟩, ⟨"b3", "ai", 3⟩] :
        List Block), b.id ≠ "b1" →
      b ∈ deleteBlock
        [⟨"b0", "ai", 0⟩, ⟨"b1", "ai", 1⟩, ⟨"b2", "ai", 2⟩, ⟨"b3", "ai", 3⟩] "b1" :=
  ⟨⟨by decide, by decide⟩,
   C2_delete_amended
     [⟨"b0", "ai", 0⟩, ⟨"b1", "ai", 1⟩, ⟨"b2", "ai", 2⟩, ⟨"b3", "ai", 3⟩]
     ⟨"b1", "ai", 1⟩ (by decide) (by decide)⟩


open PosEngine in
/-- C3, counterexample: Scenario A fails on the `server/routes.ts`
endpoint.  Creating a block at explicit position 0 on `[a@0, b@1, c@2]`
there shifts nothing: block `a` keeps position 0, the result has the
duplicate position multiset `[0, 1, 2, 0]` instead of `[1, 2, 3]` plus
the new block at 0. -/
theorem C3_insert_counterexample :
    positions (createBlock_rt [⟨"a", "ai", 0⟩, ⟨"b", "ai", 1⟩, ⟨"c", "ai", 2⟩]
      "n" "ai" (some 0)) = [0, 1, 2, 0] ∧
    (⟨"a", "ai", 0⟩ : Block) ∈ createBlock_rt
      [⟨"a", "ai", 0⟩, ⟨"b", "ai", 1⟩, ⟨"c", "ai", 2⟩] "n" "ai" (some 0) ∧
    ¬ dense (createBlock_rt [⟨"a", "ai", 0⟩, ⟨"b", "ai", 1⟩, ⟨"c", "ai", 2⟩]
      "n" "ai" (some 0)) := by
  decide

open PosEngine in
/-- C3, amended: the shift-right-then-place algorithm holds only on the
`part_006` dashboards route — there every existing block with position
`≥ P` is incremented, every block below `P` is untouched, the new block
takes `P`, and density is preserved for `0 ≤ P ≤ N`.  The
`server/routes.ts` endpoint instead stores the supplied position directly
and leaves every existing block, including those at positions `≥ P`,
completely unchanged. -/
theorem C3_insert_amended (s : List Block) (newId newType : String) (p : Int)
    (hd : dense s) (h0 : 0 ≤ p) (hn : p ≤ (s.length : Int)) :
    (∀ b ∈ s, p ≤ b.pos →
      ({ b with pos := b.pos + 1 } : Block) ∈ createBlock_p6 s newId newType (some p)) ∧
    (∀ b ∈ s, b.pos < p → b ∈ createBlock_p6 s newId newType (some p)) ∧
    (⟨newId, newType, p⟩ : Block) ∈ createBlock_p6 s newId newType (some p) ∧
    dense (createBlock_p6 s newId newType (some p)) ∧
    (∀ b ∈ s, b ∈ createBlock_rt s newId newType (some p)) ∧
    (⟨newId, newType, p⟩ : Block) ∈ createBlock_rt s newId newType (some p) := by
  refine ⟨?_, ?_, ?_, createBlock_p6_some_dense s newId newType p hd h0 hn, ?_, ?_⟩
  · intro b hb hp
    unfold createBlock_p6 shiftGE
    refine List.mem_append_left _ ?_
    have hf : ({ b with pos := b.pos + 1 } : Block)
        = (fun c : Block => if p ≤ c.pos then { c with pos := c.pos + 1 } else c) b := by
      simp [if_pos hp]
    rw [hf]
    exact List.mem_map_of_mem _ hb
  · intro b hb hp
    unfold createBlock_p6 shiftGE
    refine List.mem_append_left _ ?_
    have hf : b = (fun c : Block =>
        if p ≤ c.pos then { c with pos := c.pos + 1 } else c) b := by
      simp [if_neg (by omega : ¬ p ≤ b.pos)]
    rw [hf]
    exact List.mem_map_of_mem _ hb
  · unfold createBlock_p6
    exact List.mem_append_right _ (List.mem_singleton_self _)
  · intro b hb
    unfold createBlock_rt
    exact List.mem_append_left _ hb
  · unfold createBlock_rt
    exact List.mem_append_right _ (List.mem_singleton_self _)

open PosEngine in
/-- C3, witness: the amended statement at Scenario A's dashboard
`[a@0, b@1, c@2]` with insert position 0 on the `part_006` route: `a`
moves to 1, the new block sits at 0, and the result is dense; on the
`routes.ts` endpoint `a` is unmoved. -/
theorem C3_insert_amended_witness :
    (dense [⟨"a", "ai", 0⟩, ⟨"b", "ai", 1⟩, ⟨"c", "ai", 2⟩] ∧
     (0 : Int) ≤ 0 ∧ (0 : Int) ≤ 3 ∧
     (⟨"a", "ai", 0⟩ : Block) ∈ [⟨"a", "ai", 0⟩, ⟨"b", "ai", 1⟩, ⟨"c", "ai", 2⟩] ∧
     (0 : Int) ≤ (0 : Int)) ∧
    (⟨"a", "ai", 1⟩ : Block) ∈ createBlock_p6
      [⟨"a", "ai", 0⟩, ⟨"b", "ai", 1⟩, ⟨"c", "ai", 2⟩] "n" "ai" (some 0) ∧
    (⟨"n", "ai", 0⟩ : Block) ∈ createBlock_p6
      [⟨"a", "ai", 0⟩, ⟨"b", "ai", 1⟩, ⟨"c", "ai", 2⟩] "n" "ai" (some 0) ∧
    dense (createBlock_p6 [⟨"a", "ai", 0⟩, ⟨"b", "ai", 1⟩, ⟨"c", "ai", 2⟩]
      "n" "ai" (some 0)) ∧
    (⟨"a", "ai", 0⟩ : Block) ∈ createBlock_rt
      [⟨"a", "ai", 0⟩, ⟨"b", "ai", 1⟩, ⟨"c", "ai", 2⟩] "n" "ai" (some 0) :=
  ⟨⟨by decide, by decide, by decide, by decide, by decide⟩,
   (C3_insert_amended [⟨"a", "ai", 0⟩, ⟨"b", "ai", 1⟩, ⟨"c", "ai", 2⟩]
      "n" "ai" 0 (by decide) (by decide) (by decide)).1
      ⟨"a", "ai", 0⟩ (by decide) (by decide),
   (C3_insert_amended [⟨"a", "ai", 0⟩, ⟨"b", "ai", 1⟩, ⟨"c", "ai", 2⟩]
      "n" "ai" 0 (by decide) (by decide) (by decide)).2.2.1,
   (C3_insert_amended [⟨"a", "ai", 0⟩, ⟨"b", "ai", 1⟩, ⟨"c", "ai", 2⟩]
      "n" "ai" 0 (by decide) (by decide) (by decide)).2.2.2.1,
   (C3_insert_amended [⟨"a", "ai", 0⟩, ⟨"b", "ai", 1⟩, ⟨"c", "ai", 2⟩]
      "n" "ai" 0 (by decide) (by decide) (by decide)).2.2.2.2.1
      ⟨"a", "ai", 0⟩ (by decide)⟩

open PosEngine in
/-- C4, counterexample: with the position omitted, the `routes.ts`
endpoint does not append at the end — it inserts the new block at
position 0 and shifts every existing block down, even for a non-AI
(`text`) block.  On `[a@0]` the existing block moves to position 1 and
the new block gets 0, instead of the claimed append at position 1 with
`a` unchanged. -/
theorem C4_append_counterexample :
    createBlock_rt [⟨"a", "text", 0⟩] "n" "text" none
      = [⟨"a", "text", 1⟩, ⟨"n", "text", 0⟩] ∧
    (⟨"a", "text", 0⟩ : Block) ∉ createBlock_rt [⟨"a", "text", 0⟩] "n" "text" none := by
  decide

open PosEngine in
/-- C4, amended: with the position omitted, the `part_006` route appends
at `MAX(position) + 1` computed through a JavaScript `|| -1` fallback —
which also misfires on a one-block dashboard, whose maximum position `0`
is falsy, so the new block gets position `0` again — and leaves every
existing block unchanged regardless of block type; the `routes.ts`
endpoint instead always inserts at position 0 and shifts every existing
block down by one, again regardless of whether the block is AI-sourced. -/
theorem C4_append_amended (s : List Block) (newId newType : String)
    (hd : dense s) :
    appendPos s = (if s.length = 1 then 0 else (s.length : Int)) ∧
    createBlock_p6 s newId newType none = s ++ [⟨newId, newType, appendPos s⟩] ∧
    positions (createBlock_rt s newId newType none)
      = (positions s).map (fun k => k + 1) ++ [0] := by
  refine ⟨appendPos_dense s hd, rfl, ?_⟩
  show positions ((s.map (fun b => { b with pos := b.pos + 1 }))
      ++ [⟨newId, newType, 0⟩]) = (positions s).map (fun k => k + 1) ++ [0]
  unfold positions
  rw [List.map_append, List.map_map, List.map_map]
  rfl

open PosEngine in
/-- C4, witness: the amended statement on the dense dashboards `[a@0, b@1]`
(append lands at 2) and `[a@0]` (the falsy-zero case: append lands at 0). -/
theorem C4_append_amended_witness :
    (dense [⟨"a", "ai", 0⟩, ⟨"b", "ai", 1⟩] ∧ dense [⟨"a", "ai", 0⟩]) ∧
    (appendPos [⟨"a", "ai", 0⟩, ⟨"b", "ai", 1⟩]
        = (if ([⟨"a", "ai", 0⟩, ⟨"b", "ai", 1⟩] : List Block).length = 1 then 0
           else (([⟨"a", "ai", 0⟩, ⟨"b", "ai", 1⟩] : List Block).length : Int)) ∧
     createBlock_p6 [⟨"a", "ai", 0⟩, ⟨"b", "ai", 1⟩] "n" "ai" none
        = [⟨"a", "ai", 0⟩, ⟨"b", "ai", 1⟩]
          ++ [⟨"n", "ai", appendPos [⟨"a", "ai", 0⟩, ⟨"b", "ai", 1⟩]⟩] ∧
     positions (createBlock_rt [⟨"a", "ai", 0⟩, ⟨"b", "ai", 1⟩] "n" "ai" none)
        = (positions [⟨"a", "ai", 0⟩, ⟨"b", "ai", 1⟩]).map (fun k => k + 1) ++ [0]) ∧
    (appendPos [⟨"a", "ai", 0⟩]
        = (if ([⟨"a", "ai", 0⟩] : List Block).length = 1 then 0
           else (([⟨"a", "ai", 0⟩] : List Block).length : Int))) :=
  ⟨⟨by decide, by decide⟩,
   C4_append_amended [⟨"a", "ai", 0⟩, ⟨"b", "ai", 1⟩] "n" "ai" (by decide),
   (C4_append_amended [⟨"a", "ai", 0⟩] "n" "ai" (by decide)).1⟩

open PosEngine in
/-- C5, counterexample: `reorderBlocks` applied to `[a@0, b@1]` with the
mismatched id list `["b"]` (its id set is not the dashboard's `{a, b}`)
raises no error and does apply a partial reorder: block `b` is moved to
position 0 while `a` keeps position 0. -/
theorem C5_reorder_counterexample :
    reorderBlocks [⟨"a", "ai", 0⟩, ⟨"b", "ai", 1⟩] ["b"]
      = [⟨"a", "ai", 0⟩, ⟨"b", "ai", 0⟩] ∧
    reorderBlocks [⟨"a", "ai", 0⟩, ⟨"b", "ai", 1⟩] ["b"]
      ≠ [⟨"a", "ai", 0⟩, ⟨"b", "ai", 1⟩] := by
  decide

open PosEngine in
/-- C5, amended: `reorderBlocks` assigns to every block whose id occurs in
the supplied list the index of that id's last occurrence, leaves blocks
whose ids do not occur entirely unchanged, and performs no validation of
the id set — a mismatched list is applied as a silent partial reorder,
and no `ReorderMismatchError` (or any other failure) exists in the code. -/
theorem C5_reorder_amended (s : List Block) (order : List String) :
    reorderBlocks s order
      = s.map (fun b => { b with pos := reorderSpecPos b.id b.pos order }) ∧
    ∀ b ∈ s, b.id ∉ order → b ∈ reorderBlocks s order := by
  have hmap : reorderBlocks s order
      = s.map (fun b => { b with pos := reorderSpecPos b.id b.pos order }) := by
    unfold reorderBlocks reorderSpecPos
    exact foldl_setPos_map order.enum s
  refine ⟨hmap, ?_⟩
  intro b hb hnot
  rw [hmap]
  have hf : b = (fun c : Block =>
      { c with pos := reorderSpecPos c.id c.pos order }) b := by
    show b = ({ b with pos := reorderSpecPos b.id b.pos order } : Block)
    rw [reorderSpecPos_not_mem b.id b.pos order hnot]
  rw [hf]
  exact List.mem_map_of_mem _ hb

open PosEngine in
/-- C5, witness: the amended statement at `[a@0, b@1]` with order
`["b", "a"]`: `a` is assigned position 1, `b` position 0, and a block
whose id is absent from the list keeps its record. -/
theorem C5_reorder_amended_witness :
    reorderBlocks [⟨"a", "ai", 0⟩, ⟨"b", "ai", 1⟩] ["b", "a"]
      = ([⟨"a", "ai", 0⟩, ⟨"b", "ai", 1⟩] : List Block).map
          (fun b => { b with pos := reorderSpecPos b.id b.pos ["b", "a"] }) ∧
    ((⟨"c", "ai", 5⟩ : Block) ∈ ([⟨"c", "ai", 5⟩] : List Block) ∧
      "c" ∉ (["b", "a"] : List String)) ∧
    (⟨"c", "ai", 5⟩ : Block) ∈ reorderBlocks [⟨"c", "ai", 5⟩] ["b", "a"] :=
  ⟨(C5_reorder_amended [⟨"a", "ai", 0⟩, ⟨"b", "ai", 1⟩] ["b", "a"]).1,
   ⟨by decide, by decide⟩,
   (C5_reorder_amended [⟨"c", "ai", 5⟩] ["b", "a"]).2
     ⟨"c", "ai", 5⟩ (by decide) (by decide)⟩

namespace Reconcile

/-- A JSON scalar as it can appear in a chart payload's data array. -/
inductive JsVal where
  | num (n : Int)
  | str (s : String)
  | null
  | bool (b : Bool)
deriving Repr, DecidableEq

/-- JavaScript truthiness on payload scalars: the number 0, the empty
string, `null`/`undefined` and `false` are falsy, everything else is
truthy. -/
def truthy : JsVal → Bool
  | .num n => n != 0
  | .str s => s != ""
  | .null => false
  | .bool b => b

/-- The `x || 0` coercion applied to each data entry: a falsy entry
becomes the number 0, a truthy entry passes through unchanged. -/
def jsOrZero (v : JsVal) : JsVal := if truthy v then v else .num 0

/-- One dataset / series element: an object that may or may not carry a
`data` array. -/
structure Dataset where
  data : Option (List JsVal)
deriving Repr, DecidableEq

/-- The raw chart payload as probed by `transformChartData` in
`smart-insights-modal.tsx`: the four fields the function reads, each
absent (`undefined`) or present.  A present but empty array is truthy in
JavaScript, so optionality — not emptiness — drives the branch. -/
structure RawPayload where
  labels : Option (List String)
  datasets : Option (List Dataset)
  series : Option (List Dataset)
  xAxisCategories : Option (List String)
deriving Repr, DecidableEq

/-- One output record `{name: ..., value: ...}` as an ordered list of
key/value pairs, keeping the JavaScript object's key names observable. -/
def mkEntry (label : String) (v : JsVal) : List (String × JsVal) :=
  [("name", JsVal.str label), ("value", v)]

/-- `transformChartData` of `smart-insights-modal.tsx`:
if `labels && datasets`, zip the labels with `datasets[0].data` (empty
result when `datasets[0]` or its `data` is missing); otherwise, if
`series && series[0]`, zip `xAxis.categories || []` with
`series[0].data || []`; otherwise return `[]`.  Each value goes through
`data[index] || 0`; an out-of-range index reads `undefined`, which the
`|| 0` also sends to 0. -/
def transformChartData (p : RawPayload) : List (List (String × JsVal)) :=
  match p.labels, p.datasets with
  | some labels, some datasets =>
    match datasets.head? with
    | none => []
    | some d =>
      match d.data with
      | none => []
      | some dat =>
        labels.enum.map (fun q => mkEntry q.2 (jsOrZero ((dat.get? q.1).getD .null)))
  | _, _ =>
    match p.series with
    | some (s0 :: _) =>
      let categories := p.xAxisCategories.getD []
      let dat := s0.data.getD []
      categories.enum.map (fun q => mkEntry q.2 (jsOrZero ((dat.get? q.1).getD .null)))
    | _ => []

/-- The labeled-series wire shape `{labels, datasets: [{data}]}`. -/
def chartjsShape (labels : List String) (dat : List JsVal) : RawPayload :=
  ⟨some labels, some [⟨some dat⟩], none, none⟩

/-- The category/series wire shape `{xAxis: {categories}, series: [{data}]}`. -/
def legacyShape (labels : List String) (dat : List JsVal) : RawPayload :=
  ⟨none, none, some [⟨some dat⟩], some labels⟩

end Reconcile

open Reconcile in
/-- C8, counterexample: the two equivalent shapes do reconcile to
identical output, but that output keys each record as `{name, value}`,
not `{label, value}` — the canonical key produced by the code is `name`,
so the claimed output `[{label: "A", value: 1}, {label: "B", value: 2}]`
is not what either shape reconciles to. -/
theorem C8_label_key_counterexample :
    transformChartData (chartjsShape ["A", "B"] [.num 1, .num 2])
      = transformChartData (legacyShape ["A", "B"] [.num 1, .num 2]) ∧
    transformChartData (chartjsShape ["A", "B"] [.num 1, .num 2])
      ≠ [[("label", JsVal.str "A"), ("value", JsVal.num 1)],
         [("label", JsVal.str "B"), ("value", JsVal.num 2)]] := by
  decide

open Reconcile in
/-- C8, amended: for every label list and every value list, the
labeled-series shape `{labels, datasets: [{data}]}` and the
category/series shape `{xAxis: {categories}, series: [{data}]}` carrying
the same labels and values reconcile to identical canonical output, whose
records are keyed `name`/`value`: both
`{labels: ["A","B"], datasets: [{data: [1,2]}]}` and
`{xAxis: {categories: ["A","B"]}, series: [{data: [1,2]}]}` reconcile to
`[{name: "A", value: 1}, {name: "B", value: 2}]`. -/
theorem C8_shape_equiv_amended (labels : List String) (dat : List JsVal) :
    transformChartData (chartjsShape labels dat)
      = transformChartData (legacyShape labels dat) ∧
    transformChartData (chartjsShape ["A", "B"] [.num 1, .num 2])
      = [mkEntry "A" (.num 1), mkEntry "B" (.num 2)] :=
  ⟨rfl, by decide⟩

open Reconcile in
/-- C9, counterexample: a truthy non-numeric entry is not coerced to 0.
The string `"N/A"` is truthy in JavaScript, so `"N/A" || 0` evaluates to
`"N/A"` and the reconciled entry keeps the string value instead of the
claimed 0. -/
theorem C9_coercion_counterexample :
    transformChartData (chartjsShape ["A"] [.str "N/A"])
      = [[("name", JsVal.str "A"), ("value", JsVal.str "N/A")]] ∧
    transformChartData (chartjsShape ["A"] [.str "N/A"])
      ≠ [[("name", JsVal.str "A"), ("value", JsVal.num 0)]] := by
  decide

open Reconcile in
/-- C9, amended: reconciliation never drops an entry — the output has
exactly one record per label, in label order — and a falsy entry such as
`null` is coerced to the number 0; but a truthy non-numeric entry such as
the string `"N/A"` is passed through unchanged rather than coerced. -/
theorem C9_coercion_amended (labels : List String) (dat : List JsVal)
    (i : Nat) (lab : String) (hlab : labels[i]? = some lab) :
    (transformChartData (chartjsShape labels dat)).length = labels.length ∧
    (dat[i]? = some JsVal.null →
      (transformChartData (chartjsShape labels dat))[i]?
        = some (mkEntry lab (JsVal.num 0))) ∧
    (∀ s : String, s ≠ "" → dat[i]? = some (JsVal.str s) →
      (transformChartData (chartjsShape labels dat))[i]?
        = some (mkEntry lab (JsVal.str s))) := by
  have hred : transformChartData (chartjsShape labels dat)
      = labels.enum.map
          (fun q => mkEntry q.2 (jsOrZero ((dat.get? q.1).getD .null))) := rfl
  refine ⟨?_, ?_, ?_⟩
  · rw [hred, List.length_map, List.enum_length]
  · intro hnull
    rw [hred, List.getElem?_map, List.getElem?_enum, hlab]
    show some (mkEntry lab (jsOrZero ((dat.get? i).getD .null)))
        = some (mkEntry lab (JsVal.num 0))
    rw [List.get?_eq_getElem?, hnull]
    rfl
  · intro s hs hstr
    rw [hred, List.getElem?_map, List.getElem?_enum, hlab]
    show some (mkEntry lab (jsOrZero ((dat.get? i).getD .null)))
        = some (mkEntry lab (JsVal.str s))
    rw [List.get?_eq_getElem?, hstr]
    show some (mkEntry lab (if (s != "") = true then JsVal.str s else JsVal.num 0))
        = some (mkEntry lab (JsVal.str s))
    rw [if_pos (by simpa using hs)]

open Reconcile in
/-- C9, witness: the amended statement at labels `["A", "B"]` and data
`[null, "N/A"]` — two entries come out, the `null` becomes 0, and the
(truthy) string `"N/A"` survives as itself at index 1. -/
theorem C9_coercion_amended_witness :
    ((["A", "B"] : List String)[0]? = some "A" ∧
     (["A", "B"] : List String)[1]? = some "B") ∧
    (transformChartData (chartjsShape ["A", "B"] [.null, .str "N/A"])).length = 2 ∧
    (transformChartData (chartjsShape ["A", "B"] [.null, .str "N/A"]))[0]?
      = some (mkEntry "A" (JsVal.num 0)) ∧
    (transformChartData (chartjsShape ["A", "B"] [.null, .str "N/A"]))[1]?
      = some (mkEntry "B" (JsVal.str "N/A")) :=
  ⟨⟨by decide, by decide⟩,
   (C9_coercion_amended ["A", "B"] [.null, .str "N/A"] 0 "A" (by decide)).1,
   (C9_coercion_amended ["A", "B"] [.null, .str "N/A"] 0 "A" (by decide)).2.1 (by decide),
   (C9_coercion_amended ["A", "B"] [.null, .str "N/A"] 1 "B" (by decide)).2.2
     "N/A" (by decide) (by decide)⟩

namespace Agent

/-- The apostrophe character, built by code point to keep it out of
string literals. -/
def apos : Char := Char.ofNat 39

/-- JavaScript `String.prototype.trim`: strip whitespace from both ends,
modelled on the character list of the string. -/
def trimChars (s : List Char) : List Char :=
  ((s.dropWhile Char.isWhitespace).reverse.dropWhile Char.isWhitespace).reverse

/-- JavaScript `toLowerCase` for the ASCII phrases the greeting regex
uses, modelled character-wise. -/
def lowerChars (s : List Char) : List Char := s.map Char.toLower

/-- The alternatives of the greeting regex in the `/api/epesi-agent/chat`
handler:
`/^(hi|hello|hey|good morning|good afternoon|good evening|what's up|how are you|what can you do|help)$/i`. -/
def greetings : List (List Char) :=
  ["hi".toList, "hello".toList, "hey".toList, "good morning".toList,
   "good afternoon".toList, "good evening".toList,
   "what".toList ++ [apos] ++ "s up".toList,
   "how are you".toList, "what can you do".toList, "help".toList]

/-- `isGreeting = regex.test(prompt.trim())`: the anchored, /i-flagged
alternation holds exactly when the trimmed prompt case-insensitively
equals one of the fixed phrases. -/
def isGreeting (prompt : String) : Bool :=
  greetings.contains (lowerChars (trimChars prompt.toList))

/-- The fixed assistant reply returned on the greeting path. -/
def cannedGreetingResponse : String :=
  "Hello! I" ++ String.singleton apos
    ++ "m Epesi Agent, your AI analytics assistant. I can help you:\n\n• Analyze your data and generate insights\n• Create various types of charts and visualizations\n• Answer questions about your data\n• Generate comprehensive reports\n\nWhat would you like to explore today?"

/-- The observable outcome of one `/api/epesi-agent/chat` request:
which messages were persisted (role, content) in order, the response
text, the charts returned (opaque payloads), and whether the generation
backend was invoked. -/
structure ChatOutcome where
  persisted : List (String × String)
  response : String
  charts : List String
  backendCalled : Bool
deriving Repr, DecidableEq

/-- The message flow of the `/api/epesi-agent/chat` handler after the
conversation is resolved: the user message is saved first; a greeting
short-circuits with the canned response, an empty chart list and no
backend call; otherwise `generateEpesiAgentResponse` (here the opaque
`backend` collaborator) is invoked and its response is saved with its
charts as metadata. -/
def epesiAgentChat (prompt : String)
    (backend : String → String × List String) : ChatOutcome :=
  if isGreeting prompt then
    { persisted := [("user", prompt), ("assistant", cannedGreetingResponse)],
      response := cannedGreetingResponse, charts := [], backendCalled := false }
  else
    let r := backend prompt
    { persisted := [("user", prompt), ("assistant", r.1)],
      response := r.1, charts := r.2, backendCalled := true }

/-- Conversation title derivation of the same handler:
`prompt.length > 50 ? prompt.substring(0, 50) + "..." : prompt`,
modelled on the character list. -/
def deriveTitle (prompt : List Char) : List Char :=
  if 50 < prompt.length then prompt.take 50 ++ "...".toList else prompt

/-- `getBlockChatHistory` orders rows by `generatedAt` descending, so the
server returns the append-only turn list reversed. -/
def getBlockChatHistoryOrder {α : Type} (turns : List α) : List α := turns.reverse

/-- JavaScript `Array.prototype.slice(-6)`: the last six elements (the
whole array when it is shorter). -/
def sliceLast6 {α : Type} (l : List α) : List α := l.drop (l.length - 6)

/-- The conversational context built by `generateChartMutation` in
`draggable-toolbar.tsx`: `chatHistory.slice(-6).reverse()` applied to the
server-provided (most-recent-first) history.  `turns` is the block's
history in chronological order. -/
def chartContext {α : Type} (turns : List α) : List α :=
  (sliceLast6 (getBlockChatHistoryOrder turns)).reverse

end Agent

open Agent in
/-- C6: code bug.  For a block whose chronological history is the seven
turns `0..6` (6 newest), the context actually sent is
`chatHistory.slice(-6).reverse()` applied to the DESC-ordered server
response — that is the six OLDEST turns `[0, 1, 2, 3, 4, 5]` in
oldest-first order, dropping the newest turn entirely, instead of the
most recent six turns most-recent-first `[6, 5, 4, 3, 2, 1]` that the
spec and the code's own `// Most recent first` comment describe. -/
theorem C6_context_bug :
    chartContext [0, 1, 2, 3, 4, 5, 6] = [0, 1, 2, 3, 4, 5] ∧
    chartContext [0, 1, 2, 3, 4, 5, 6]
      ≠ (List.reverse [0, 1, 2, 3, 4, 5, 6]).take 6 := by
  decide

open Agent in
/-- C7: a first prompt longer than 50 characters yields a title that is
exactly its first 50 characters followed by `"..."` (so 53 characters,
agreeing with the prompt on the first 50 and ending in the ellipsis),
and a prompt of at most 50 characters is stored verbatim. -/
theorem C7_title_derivation (p : List Char) :
    (50 < p.length →
      deriveTitle p = p.take 50 ++ "...".toList ∧
      (deriveTitle p).length = 53 ∧
      (deriveTitle p).take 50 = p.take 50 ∧
      (deriveTitle p).drop 50 = "...".toList) ∧
    (p.length ≤ 50 → deriveTitle p = p) := by
  constructor
  · intro h
    unfold deriveTitle
    rw [if_pos h]
    refine ⟨rfl, ?_, ?_, ?_⟩
    · rw [List.length_append, List.length_take]
      have : "...".toList.length = 3 := by decide
      omega
    · rw [List.take_append_of_le_length (by rw [List.length_take]; omega),
        List.take_take]
      norm_num
    · exact List.drop_left' (by rw [List.length_take]; omega)
  · intro h
    unfold deriveTitle
    rw [if_neg (by omega)]

open Agent in
/-- C7, witness: a 60-character prompt is truncated to its first 50
characters plus the ellipsis; a short prompt is kept verbatim. -/
theorem C7_title_derivation_witness :
    (50 < (List.replicate 60 'x').length ∧
      (List.replicate 10 'y').length ≤ 50) ∧
    (deriveTitle (List.replicate 60 'x')
        = (List.replicate 60 'x').take 50 ++ "...".toList ∧
      (deriveTitle (List.replicate 60 'x')).length = 53 ∧
      (deriveTitle (List.replicate 60 'x')).take 50
        = (List.replicate 60 'x').take 50 ∧
      (deriveTitle (List.replicate 60 'x')).drop 50 = "...".toList) ∧
    deriveTitle (List.replicate 10 'y') = List.replicate 10 'y' :=
  ⟨⟨by decide, by decide⟩,
   (C7_title_derivation (List.replicate 60 'x')).1 (by decide),
   (C7_title_derivation (List.replicate 10 'y')).2 (by decide)⟩

open Agent in
/-- C10: a prompt that after trimming case-insensitively equals one of
the fixed greeting phrases makes the chat endpoint persist the user
message and the canned assistant message, return the canned response
with an empty chart list, and never invoke the generation backend. -/
theorem C10_greeting_shortcircuit (prompt : String)
    (backend : String → String × List String)
    (h : isGreeting prompt = true) :
    epesiAgentChat prompt backend =
      { persisted := [("user", prompt), ("assistant", cannedGreetingResponse)],
        response := cannedGreetingResponse,
        charts := [], backendCalled := false } := by
  unfold epesiAgentChat
  rw [if_pos h]

open Agent in
/-- C10, witness: the prompt `"  Hello  "` (exercising both the trim and
the case-insensitivity) takes the greeting path even with a backend that
would return charts. -/
theorem C10_greeting_shortcircuit_witness :
    isGreeting "  Hello  " = true ∧
    epesiAgentChat "  Hello  " (fun p => (p, ["chart"])) =
      { persisted := [("user", "  Hello  "), ("assistant", cannedGreetingResponse)],
        response := cannedGreetingResponse,
        charts := [], backendCalled := false } :=
  ⟨by decide, C10_greeting_shortcircuit "  Hello  " _ (by decide)⟩
